import Mathlib

/-!
Shallow embedding of the DMTF Redfish-Test-Framework engine
(src/test_framework.py) and proofs about its specification.

Modelling conventions:
* Python `dict`s become insertion-ordered association lists
  (`List (String × α)`); `dictInsert` replaces an existing key in place,
  like Python assignment, and `dictLookup` finds the (unique) binding.
* Filesystem paths are lists of path segments (`List String`); a path
  string `a/b/c` is `["a", "b", "c"]`, so `path.count(os.path.sep)`
  differences become length differences and `str.rsplit(os.sep, k)`
  becomes pattern matching on `path.reverse`.
* Effects are explicit: `sys.exit(n)` and uncaught exceptions that kill
  the process become `Except Nat` (error value = process exit code);
  the `TypeError` raised by formatting a `None` timestamp becomes
  `Except Unit`; the operating system (chdir/mkdir/open/subprocess and
  file contents) is an explicit environment record passed to the
  functions that consult it.
* JSON documents become the inductive `JsonVal`; parsing by the external
  `json` library is an oracle (`ConfigFileContent`), while the three
  JSON-schema validators are translated from the literal schema objects
  in the source.
-/

/-! ## Python dictionaries as insertion-ordered association lists -/

/-- `d[key]` for a Python dict modelled as an association list. -/
def dictLookup {α : Type} : List (String × α) → String → Option α
  | [], _ => none
  | (k, v) :: rest, key => if k = key then some v else dictLookup rest key

/-- `d[key] = v` for a Python dict: replace in place if the key exists,
else append, preserving insertion order exactly as CPython does. -/
def dictInsert {α : Type} : List (String × α) → String → α → List (String × α)
  | [], key, v => [(key, v)]
  | (k, w) :: rest, key, v =>
    if k = key then (key, v) :: rest else (k, w) :: dictInsert rest key v

theorem dictLookup_insert_self {α : Type} (d : List (String × α)) (k : String) (v : α) :
    dictLookup (dictInsert d k v) k = some v := by
  induction d with
  | nil => simp [dictInsert, dictLookup]
  | cons p rest ih =>
    obtain ⟨k', w⟩ := p
    by_cases h : k' = k
    · simp [dictInsert, h, dictLookup]
    · simp [dictInsert, h, dictLookup, ih]

theorem dictLookup_insert_ne {α : Type} (d : List (String × α)) {k k' : String} (v : α)
    (h : k ≠ k') : dictLookup (dictInsert d k' v) k = dictLookup d k := by
  have h' : k' ≠ k := Ne.symm h
  induction d with
  | nil => simp [dictInsert, dictLookup, h']
  | cons p rest ih =>
    obtain ⟨k₀, w⟩ := p
    by_cases h0 : k₀ = k'
    · subst h0
      simp [dictInsert, dictLookup, h']
    · simp only [dictInsert, h0, if_neg h0, dictLookup, ih]

/-! ## Python string helpers -/

/-- Python `arg.startswith("$")` (for the one-character prefix used by the
substitution code). -/
def pyStartsWithDollar (s : String) : Bool :=
  match s.data with
  | [] => false
  | c :: _ => c = '$'

/-- Python `arg[1:]`. -/
def pyDropFirst (s : String) : String :=
  ⟨s.data.drop 1⟩

/-- Python `str.split()` with no argument: split on runs of whitespace and
drop empty pieces. -/
def pySplit (s : String) : List String :=
  (s.split fun c => c.isWhitespace).filter (fun t => t ≠ "")

/-! ## JSON values and the three config-file schemas -/

/-- A JSON document as loaded by `json.load` (floats do not occur in any
validated configuration, so numbers are modelled as integers). -/
inductive JsonVal where
  | null : JsonVal
  | bool (b : Bool) : JsonVal
  | int (n : Int) : JsonVal
  | str (s : String) : JsonVal
  | arr (elems : List JsonVal) : JsonVal
  | obj (fields : List (String × JsonVal)) : JsonVal

/-- `d[key]` / `key in d` on a parsed JSON object. -/
def jsonObjGet (v : JsonVal) (key : String) : Option JsonVal :=
  match v with
  | .obj fields => dictLookup fields key
  | _ => none

def isStringVal (v : JsonVal) : Bool :=
  match v with
  | .str _ => true
  | _ => false

/-- The regex `^[_a-z][_a-z0-9]*$` from the `custom_variables`
`patternProperties` of the framework and suite schemas. -/
def matchesVarPattern (s : String) : Bool :=
  match s.data with
  | [] => false
  | c :: rest =>
    (c = '_' || (('a' ≤ c) && (c ≤ 'z'))) &&
      rest.all fun d => d = '_' || (('a' ≤ d) && (d ≤ 'z')) || (('0' ≤ d) && (d ≤ '9'))

/-- The `custom_variables` schema fragment shared by the framework and
suite schemas: an object whose keys match `^[_a-z][_a-z0-9]*$` and whose
values are strings; `additionalProperties` is false. -/
def validCustomVariables (v : JsonVal) : Bool :=
  match v with
  | .obj fields => fields.all fun p => matchesVarPattern p.1 && isStringVal p.2
  | _ => false

/-- `TestFramework.config_schema` (framework_conf.json): six optional
string properties plus optional `custom_variables`; no other fields. -/
def validFrameworkConfig (v : JsonVal) : Bool :=
  match v with
  | .obj fields =>
    fields.all fun p =>
      if p.1 = "custom_variables" then validCustomVariables p.2
      else if p.1 = "https" || p.1 = "interpreter" || p.1 = "password" ||
              p.1 = "target_system" || p.1 = "token" || p.1 = "username" then
        isStringVal p.2
      else false
  | _ => false

/-- `TestSuite.config_schema` (suite_conf.json): only an optional
`custom_variables` object. -/
def validSuiteConfig (v : JsonVal) : Bool :=
  match v with
  | .obj fields => fields.all fun p => p.1 = "custom_variables" && validCustomVariables p.2
  | _ => false

/-- The `test` object of `TestCase.config_schema`: required string
`command`, optional integer `wait_seconds_after` with minimum 0. -/
def validTestObj (v : JsonVal) : Bool :=
  match v with
  | .obj fields =>
    fields.any (fun p => p.1 = "command") &&
      fields.all fun p =>
        if p.1 = "command" then isStringVal p.2
        else if p.1 = "wait_seconds_after" then
          (match p.2 with
           | .int n => (0 : Int) ≤ n
           | _ => false)
        else false
  | _ => false

/-- `TestCase.config_schema` (test_conf.json): a required `test` object
and nothing else. -/
def validCaseConfig (v : JsonVal) : Bool :=
  match v with
  | .obj fields =>
    fields.any (fun p => p.1 = "test") &&
      fields.all fun p => p.1 = "test" && validTestObj p.2
  | _ => false

/-! ## The hierarchy entities -/

/-- `class TestCase` (one test directory).  `results_filename` is the
constant `"results.json"`; the timestamp is an abstract clock value. -/
structure TestCase where
  path : List String
  name : String
  output_dir : List String
  config_file : Option String
  config_dict : Option JsonVal
  command_args : Option (List String)
  command_args_printable : Option (List String)
  return_code : Int
  results : Option JsonVal
  timestamp : Option Nat
  wait_seconds_after : Int

/-- `TestCase.__init__(path, subdir, output_subdir)`: `return_code` starts
non-zero, everything else unset. -/
def TestCase.init (path : List String) (subdir : String) (output_subdir : String) : TestCase :=
  { path := path ++ [subdir]
    name := subdir
    output_dir := path ++ [subdir, output_subdir]
    config_file := none
    config_dict := none
    command_args := none
    command_args_printable := none
    return_code := 1
    results := none
    timestamp := none
    wait_seconds_after := 0 }

/-- `class TestSuite`.  The pair `test_list`/`test_dict` of the source is
modelled by `test_list` alone: `test_dict[name]` is recovered as the most
recently appended member with that name, which is what the Python dict
holds after the corresponding `add_test_case` calls. -/
structure TestSuite where
  path : List String
  name : String
  config_file : Option String
  config_dict : Option JsonVal
  test_list : List TestCase
  custom_vars : List (String × String)

/-- `TestSuite.__init__(path, subdir)`. -/
def TestSuite.init (path : List String) (subdir : String) : TestSuite :=
  { path := path ++ [subdir]
    name := subdir
    config_file := none
    config_dict := none
    test_list := []
    custom_vars := [] }

/-- `class TestFramework`.  As with suites, `suite_dict` is modelled by
lookup in `suite_list`.  The run timestamp only feeds the derived
`output_subdir` name, which is kept as an abstract string parameter. -/
structure TestFramework where
  path : List String
  config_file : Option String
  config_dict : Option JsonVal
  suite_list : List TestSuite
  config_vars : List (String × String)
  output_subdir : String

/-- `TestFramework.__init__(path)` with the derived output subdirectory
name supplied explicitly (in Python it is computed from the clock). -/
def TestFramework.init (path : List String) (output_subdir : String) : TestFramework :=
  { path := path
    config_file := none
    config_dict := none
    suite_list := []
    config_vars := []
    output_subdir := output_subdir }

/-- `TestFramework.sensitive_args` (line 32). -/
def TestFramework.sensitive_args : List String := ["password", "token"]

/-! ## Variable substitution (lines 154-182 and 297-325)

Both `substitute_config_variables` methods run the same per-argument
rewrite, differing only in the scope consulted (`config_vars` vs
`custom_vars`); `enumerate` visits each index exactly once and only the
current index is assigned, so one in-place pass is `List.map` of the
per-argument function. -/

/-- One argument of the executable list: a `$name` token is replaced by
the scope value when the name is bound, otherwise (warning logged) left
unchanged; a non-token argument is untouched. -/
def substVarArg (vars : List (String × String)) (arg : String) : String :=
  if pyStartsWithDollar arg then
    match dictLookup vars (pyDropFirst arg) with
    | some v => v
    | none => arg
  else arg

/-- One argument of the printable list: as `substVarArg`, except that a
resolved name listed in `TestFramework.sensitive_args` is replaced by the
fixed mask `"********"`. -/
def substVarArgPrintable (vars : List (String × String)) (arg : String) : String :=
  if pyStartsWithDollar arg then
    match dictLookup vars (pyDropFirst arg) with
    | some v =>
      if pyDropFirst arg ∈ TestFramework.sensitive_args then "********" else v
    | none => arg
  else arg

/-- `TestFramework.substitute_config_variables` (lines 154-182): rewrite
both lists against the top-level scope `config_vars`. -/
def TestFramework.substitute_config_variables (fw : TestFramework)
    (command_args command_args_printable : Option (List String)) :
    Option (List String) × Option (List String) :=
  (command_args.map fun l => l.map (substVarArg fw.config_vars),
   command_args_printable.map fun l => l.map (substVarArgPrintable fw.config_vars))

/-- `TestSuite.substitute_config_variables` (lines 297-325): rewrite both
lists against the suite scope `custom_vars`. -/
def TestSuite.substitute_config_variables (s : TestSuite)
    (command_args command_args_printable : Option (List String)) :
    Option (List String) × Option (List String) :=
  (command_args.map fun l => l.map (substVarArg s.custom_vars),
   command_args_printable.map fun l => l.map (substVarArgPrintable s.custom_vars))

/-- The two substitution calls of `main` (lines 962-963): the suite-level
pass followed by the framework-level pass, on both lists. -/
def mainSubstitute (suite : TestSuite) (fw : TestFramework)
    (command_args command_args_printable : Option (List String)) :
    Option (List String) × Option (List String) :=
  let p := TestSuite.substitute_config_variables suite command_args command_args_printable
  TestFramework.substitute_config_variables fw p.1 p.2

/-! ## Configuration attachment and command-line overrides -/

/-- `TestFramework.set_config_file`. -/
def TestFramework.set_config_file (fw : TestFramework) (config_file : String) : TestFramework :=
  { fw with config_file := some config_file }

/-- One step of the well-known-variable loop of
`TestFramework.set_config_data`: `if var in self.config_dict:
self.config_vars[var] = self.config_dict[var]`.  The value is a string by
schema validation; a non-string value (unreachable after validation) is
skipped. -/
def insertWellKnown (config_dict : JsonVal) (vs : List (String × String)) (var : String) :
    List (String × String) :=
  match jsonObjGet config_dict var with
  | some (.str s) => dictInsert vs var s
  | _ => vs

/-- One step of the `custom_variables` loop shared by
`TestFramework.set_config_data` and `TestSuite.set_config_data`. -/
def insertCustomVar (vs : List (String × String)) (p : String × JsonVal) :
    List (String × String) :=
  match p.2 with
  | .str s => dictInsert vs p.1 s
  | _ => vs

/-- `TestFramework.set_config_data` (lines 117-131): record the dict, seed
`config_vars` with `output_subdir`, copy the six well-known keys that are
present, then the custom variables. -/
def TestFramework.set_config_data (fw : TestFramework) (config_dict : JsonVal) : TestFramework :=
  let vars0 := dictInsert fw.config_vars "output_subdir" fw.output_subdir
  let vars1 :=
    ["target_system", "username", "password", "token", "https", "interpreter"].foldl
      (insertWellKnown config_dict) vars0
  let vars2 :=
    match jsonObjGet config_dict "custom_variables" with
    | some (.obj varObj) => varObj.foldl insertCustomVar vars1
    | _ => vars1
  { fw with config_dict := some config_dict, config_vars := vars2 }

/-- The argparse namespace of `main` (only the fields consulted by
`override_config_data`; each is `None` when the flag was not given). -/
structure CmdArgs where
  rhost : Option String
  user : Option String
  password : Option String
  token : Option String
  secure : Option String
  directory : Option String
  interpreter : Option String

/-- One `if args.X is not None: self.config_vars[key] = args.X` step of
`override_config_data`. -/
def condInsert (vs : List (String × String)) (key : String) (o : Option String) :
    List (String × String) :=
  match o with
  | some v => dictInsert vs key v
  | none => vs

/-- `TestFramework.override_config_data` (lines 133-152): each flag that
was given replaces the corresponding well-known variable. -/
def TestFramework.override_config_data (fw : TestFramework) (args : CmdArgs) : TestFramework :=
  let vs1 := condInsert fw.config_vars "target_system" args.rhost
  let vs2 := condInsert vs1 "username" args.user
  let vs3 := condInsert vs2 "password" args.password
  let vs4 := condInsert vs3 "token" args.token
  let vs5 := condInsert vs4 "https" args.secure
  let vs6 := condInsert vs5 "output_subdir" args.directory
  let vs7 := condInsert vs6 "interpreter" args.interpreter
  { fw with config_vars := vs7 }

/-- `TestSuite.set_config_file`. -/
def TestSuite.set_config_file (s : TestSuite) (config_file : String) : TestSuite :=
  { s with config_file := some config_file }

/-- `TestSuite.set_config_data` (lines 285-295): record the dict and copy
the custom variables. -/
def TestSuite.set_config_data (s : TestSuite) (config_dict : JsonVal) : TestSuite :=
  let vars :=
    match jsonObjGet config_dict "custom_variables" with
    | some (.obj varObj) => varObj.foldl insertCustomVar s.custom_vars
    | _ => s.custom_vars
  { s with config_dict := some config_dict, custom_vars := vars }

/-- `TestCase.set_config_file`. -/
def TestCase.set_config_file (c : TestCase) (config_file : String) : TestCase :=
  { c with config_file := some config_file }

/-- `TestCase.set_config_data` (lines 444-454): record the dict, split the
command into both argument lists, read the optional wait.  A missing
`test` key would raise `KeyError` in Python but is unreachable behind
schema validation; it is modelled as recording the dict only. -/
def TestCase.set_config_data (c : TestCase) (config_dict : JsonVal) : TestCase :=
  let c := { c with config_dict := some config_dict }
  match jsonObjGet config_dict "test" with
  | some tobj =>
    let c :=
      match jsonObjGet tobj "command" with
      | some (.str cmd) =>
        { c with command_args := some (pySplit cmd),
                 command_args_printable := some (pySplit cmd) }
      | _ => c
    match jsonObjGet tobj "wait_seconds_after" with
    | some (.int n) => { c with wait_seconds_after := n }
    | _ => c
  | none => c

/-! ## Case execution (lines 492-563) -/

/-- The operating-system behaviour consulted by `TestCase.run`: success of
`os.chdir` / `os.mkdir` / opening the two log files, the exit code of
`subprocess.call` (`none` models the caught `OSError` / `ValueError` /
`TimeoutExpired`, which leave `return_code` untouched), the parsed
`results.json` found in an output directory (`none` models a missing or
unparseable file), and the current clock value. -/
structure ExecEnv where
  chdirOk : List String → Bool
  mkdirOk : List String → Bool
  openOk : List String → Bool
  spawn : List String → Option Int
  readResults : List String → Option JsonVal
  now : Nat

/-- `TestCase.run` (lines 492-563): chdir to the case directory, create
the output directory (must not pre-exist), open the log files, then — if
configured with a `test` element and a command — record the start
timestamp, run the command, and read the optional `results.json`.  Every
failing step before the command returns early, leaving the default
non-zero `return_code`.  The function returns the updated case together
with the process working directory after the call (the sleep for
`wait_seconds_after` has no modelled effect). -/
def TestCase.run (env : ExecEnv) (cwd : List String) (c : TestCase) :
    TestCase × List String :=
  if !env.chdirOk c.path then (c, cwd)
  else if !env.mkdirOk c.output_dir then (c, c.path)
  else if !env.openOk c.output_dir then (c, c.path)
  else
    match c.config_dict with
    | none => (c, c.path)
    | some cd =>
      match jsonObjGet cd "test" with
      | none => (c, c.path)
      | some _ =>
        match c.command_args with
        | none => (c, c.path)
        | some cargs =>
          let c1 : TestCase := { c with timestamp := some env.now }
          let c2 : TestCase :=
            match env.spawn cargs with
            | some rc => { c1 with return_code := rc }
            | none => c1
          ({ c2 with results := env.readResults c.output_dir }, c.path)

/-- `create_test_results` (lines 700-730), the synthesized minimal result
record.  Formatting the timestamp with `"{:%Y-%m-%dT%H:%M:%SZ}".format`
raises `TypeError` when the timestamp is `None`
(`NoneType.__format__` rejects a non-empty format spec); that exception is
the `Except.error` case.  The strftime rendering of a real timestamp is
modelled by `toString`. -/
def create_test_results (suite_name test_name : String) (timestamp : Option Nat)
    (command_args_printable : Option (List String)) (rc : Int) :
    Except Unit JsonVal :=
  match timestamp with
  | none => .error ()
  | some t =>
    let failed : Int := if rc = 0 then 0 else 1
    let passed : Int := if rc = 0 then 1 else 0
    .ok (.obj
      [("ToolName", .str ("Suite: " ++ suite_name ++ ", Test case: " ++ test_name)),
       ("Timestamp", .obj [("DateTime", .str (toString t))]),
       ("CommandLineArgs",
         match command_args_printable with
         | some l => .arr (l.map JsonVal.str)
         | none => .null),
       ("TestResults", .obj [(test_name, .obj [("fail", .int failed), ("pass", .int passed)])]),
       ("ServiceRoot", .obj [])])

/-- `class Results` (lines 605-633): only the two `TestCases` arrays are
modelled (the fixed headers and the serialization of `write_results` carry
no information relevant to the claims). -/
structure Results where
  results_pass : List JsonVal
  results_fail : List JsonVal

def Results.add_test_results_pass (r : Results) (results_dict : JsonVal) : Results :=
  { r with results_pass := r.results_pass ++ [results_dict] }

def Results.add_test_results_fail (r : Results) (results_dict : JsonVal) : Results :=
  { r with results_fail := r.results_fail ++ [results_dict] }

/-- `RedfishTestCase.run_test` (lines 576-602): run the case, classify by
return code (zero = pass), append the case's own structured results or a
synthesized record to the matching collection, chdir back to the
framework root, and assert a zero return code (the returned `Bool` is the
assertion's outcome).  The `Except.error` case is the uncaught
`TypeError` from `create_test_results`, which aborts the test method
before the record is appended and before the chdir back. -/
def RedfishTestCase.run_test (env : ExecEnv) (framework : TestFramework)
    (suite : TestSuite) (case : TestCase) (results : Results) (cwd : List String) :
    Except Unit (TestCase × Results × List String × Bool) :=
  let r1 := TestCase.run env cwd case
  let case1 := r1.1
  let cwd1 := r1.2
  let rc := case1.return_code
  let step : Except Unit Results :=
    if rc = 0 then
      match case1.results with
      | some r => .ok (results.add_test_results_pass r)
      | none =>
        match create_test_results suite.name case1.name case1.timestamp
            case1.command_args_printable rc with
        | .ok tr => .ok (results.add_test_results_pass tr)
        | .error e => .error e
    else
      match case1.results with
      | some r => .ok (results.add_test_results_fail r)
      | none =>
        match create_test_results suite.name case1.name case1.timestamp
            case1.command_args_printable rc with
        | .ok tr => .ok (results.add_test_results_fail tr)
        | .error e => .error e
  match step with
  | .error e => .error e
  | .ok results1 =>
    let cwd2 := if env.chdirOk framework.path then framework.path else cwd1
    .ok (case1, results1, cwd2, rc == 0)

/-! ## The dynamic unittest registry (lines 801-818) -/

/-- A `\w` character for the ASCII identifiers produced here. -/
def isWordChar (c : Char) : Bool :=
  c.isAlphanum || c = '_'

/-- Python `re.sub('\W|^(?=\d)', '_', s)`: every non-word character
becomes `_`, and a leading digit gets `_` prepended (the zero-width
`^(?=\d)` match). -/
def pyNormalizeIdent (s : String) : String :=
  let mapped : String := ⟨s.data.map fun c => if isWordChar c then c else '_'⟩
  match s.data with
  | c :: _ => if c.isDigit then "_" ++ mapped else mapped
  | [] => mapped

/-- The unit name derived in `add_test_as_unittest` (lines 813-815). -/
def test_func_name_for (suite_name case_name : String) : String :=
  pyNormalizeIdent ("test_" ++ suite_name ++ "_" ++ case_name)

/-- `add_test_as_unittest` (lines 801-818): `setattr(RedfishTestCase,
name, func)` stores the bound closure in the class dict under the derived
name; the closure is identified by the (suite name, case name) pair it
captures.  `setattr` on an existing name replaces the stored value. -/
def add_test_as_unittest (registry : List (String × (String × String)))
    (suite_name case_name : String) : List (String × (String × String)) :=
  dictInsert registry (test_func_name_for suite_name case_name) (suite_name, case_name)

/-- The registration loop of `main` (lines 952-968): for every suite, for
every case, exactly the cases whose config file was found are handed to
`add_test_as_unittest`; the list returned is the sequence of
(suite name, case name) pairs registered, in order. -/
def main_registration_list (fw : TestFramework) : List (String × String) :=
  (fw.suite_list.map fun s =>
    (s.test_list.filter fun c => c.config_file.isSome).map fun c => (s.name, c.name)).flatten

/-! ## Reading and validating configuration files (lines 733-798) -/

/-- What the filesystem and the `json` parser yield for one configuration
file: the file is absent (`OSError` on open), present but malformed JSON
(`ValueError` from `json.load`), or parsed to a document. -/
inductive ConfigFileContent where
  | missing : ConfigFileContent
  | invalidJson : ConfigFileContent
  | parsed (v : JsonVal) : ConfigFileContent

/-- Which statically known schema `get_config_schema` (lines 733-748)
returns for a config filename. -/
inductive SchemaId where
  | framework : SchemaId
  | suite : SchemaId
  | caseLevel : SchemaId

def get_config_schema (json_file : String) : Option SchemaId :=
  if json_file = "framework_conf.json" then some .framework
  else if json_file = "suite_conf.json" then some .suite
  else if json_file = "test_conf.json" then some .caseLevel
  else none

def validateBySchema (sid : SchemaId) (v : JsonVal) : Bool :=
  match sid with
  | .framework => validFrameworkConfig v
  | .suite => validSuiteConfig v
  | .caseLevel => validCaseConfig v

/-- `read_config_file` (lines 751-784): open, parse and schema-validate
the file; every failure — `OSError`, `ValueError`, `ValidationError`,
`SchemaError` — is logged and then calls `sys.exit(1)`, at every tree
level.  (The `none` schema branch, reachable only with an unexpected
filename, also dies validating against `None`.) -/
def read_config_file (content : ConfigFileContent) (json_file : String) :
    Except Nat JsonVal :=
  match content with
  | .missing => .error 1
  | .invalidJson => .error 1
  | .parsed v =>
    match get_config_schema json_file with
    | some sid => if validateBySchema sid v then .ok v else .error 1
    | none => .error 1

/-- `get_config_file` (lines 787-798): the config filename expected at
this depth, when present among the directory's files. -/
def get_config_file (depth : Nat) (files : List String) : Option String :=
  match depth with
  | 0 => if "framework_conf.json" ∈ files then some "framework_conf.json" else none
  | 1 => if "suite_conf.json" ∈ files then some "suite_conf.json" else none
  | 2 => if "test_conf.json" ∈ files then some "test_conf.json" else none
  | _ => none

/-! ## The depth-bounded directory walk (lines 664-679) -/

/-- A directory tree: name, plain files, subdirectories. -/
inductive DirTree where
  | node (name : String) (files : List String) (subdirs : List DirTree) : DirTree

def DirTree.name : DirTree → String
  | .node n _ _ => n

def DirTree.files : DirTree → List String
  | .node _ fs _ => fs

def DirTree.subdirs : DirTree → List DirTree
  | .node _ _ ds => ds

/-- One entry yielded by `walk_depth`: `(depth, path, dirs, files)`. -/
structure WalkEntry where
  depth : Nat
  path : List String
  dirs : List String
  files : List String
deriving DecidableEq

/-- The walk entry `(depth, path, dirs, files)` yielded for one visited
directory. -/
def entryOf (t : DirTree) (path : List String) (depth : Nat) : WalkEntry :=
  { depth := depth, path := path, dirs := t.subdirs.map DirTree.name, files := t.files }

/-- The recursion of `walk_depth`: the top-down `os.walk` with the
`del dirs[:]` pruning.  A directory is always yielded with its full
subdirectory list; descent happens only while `depth < max_depth`, which
is encoded structurally by the fuel `max_depth - depth`. -/
def walkAux : Nat → DirTree → List String → Nat → List WalkEntry
  | 0, t, path, depth => [entryOf t path depth]
  | fuel + 1, t, path, depth =>
    entryOf t path depth ::
      (t.subdirs.map fun c => walkAux fuel c (path ++ [c.name]) (depth + 1)).flatten

/-- `walk_depth(directory, max_depth)` (lines 664-679) over a modelled
directory tree rooted at the path `rootPath`. -/
def walk_depth (t : DirTree) (rootPath : List String) (max_depth : Nat) : List WalkEntry :=
  walkAux max_depth t rootPath 0

/-! ## Tree discovery (lines 841-882 and the walk loop of main, 924-938) -/

/-- The filesystem contents consulted during discovery: for a directory
path and a config filename, what opening and parsing that file yields.
`output_subdir` is the run's derived output directory name. -/
structure DiscoveryEnv where
  contents : List String → String → ConfigFileContent
  output_subdir : String

/-- `framework.get_suite(name)` via `suite_dict`: the most recently added
suite carrying the name. -/
def TestFramework.get_suite (fw : TestFramework) (name : String) : Option TestSuite :=
  fw.suite_list.reverse.find? fun s => s.name == name

/-- `suite.get_test_case(name)` via `test_dict`. -/
def TestSuite.get_test_case (s : TestSuite) (name : String) : Option TestCase :=
  s.test_list.reverse.find? fun c => c.name == name

/-- Replace the first element satisfying `p` (used, after reversing, to
mutate the object that a dict lookup aliases). -/
def updateFirstBy {α : Type} : List α → (α → Bool) → (α → α) → List α
  | [], _, _ => []
  | x :: xs, p, f => if p x then f x :: xs else x :: updateFirstBy xs p f

/-- Mutate in place the list element that `get_suite`/`get_test_case`
aliases: the last element satisfying `p`. -/
def updateLastBy {α : Type} (l : List α) (p : α → Bool) (f : α → α) : List α :=
  (updateFirstBy l.reverse p f).reverse

/-- In-place mutation of the suite object returned by `get_suite`. -/
def TestFramework.updateSuite (fw : TestFramework) (name : String)
    (f : TestSuite → TestSuite) : TestFramework :=
  { fw with suite_list := updateLastBy fw.suite_list (fun s => s.name == name) f }

/-- In-place mutation of the case object returned by `get_test_case`. -/
def TestSuite.updateCase (s : TestSuite) (name : String)
    (f : TestCase → TestCase) : TestSuite :=
  { s with test_list := updateLastBy s.test_list (fun c => c.name == name) f }

/-- `TestFramework.add_suite`. -/
def TestFramework.add_suite (fw : TestFramework) (s : TestSuite) : TestFramework :=
  { fw with suite_list := fw.suite_list ++ [s] }

/-- `TestSuite.add_test_case`. -/
def TestSuite.add_test_case (s : TestSuite) (c : TestCase) : TestSuite :=
  { s with test_list := s.test_list ++ [c] }

/-- `add_test_suites` (lines 864-882): read the top-level config file when
present (a bad file exits the run), then create one `TestSuite` per
subdirectory. -/
def add_test_suites (env : DiscoveryEnv) (fw : TestFramework) (e : WalkEntry) :
    Except Nat TestFramework :=
  let addAll : TestFramework → TestFramework := fun fw0 =>
    e.dirs.foldl (fun acc subdir => acc.add_suite (TestSuite.init e.path subdir)) fw0
  match get_config_file e.depth e.files with
  | some cf =>
    match read_config_file (env.contents e.path cf) cf with
    | .error n => .error n
    | .ok cd => .ok (addAll ((fw.set_config_file cf).set_config_data cd))
  | none => .ok (addAll fw)

/-- The suite-configuration half of `add_test_cases_to_suite` (lines
852-858): read the suite config file when present (a bad file exits the
run) and attach it to the suite found in the registry (a missing suite
kills the process with `AttributeError`). -/
def suite_config_step (env : DiscoveryEnv) (fw : TestFramework) (e : WalkEntry)
    (suite_name : String) : Except Nat TestFramework :=
  match get_config_file e.depth e.files with
  | some cf =>
    match read_config_file (env.contents e.path cf) cf with
    | .error n => .error n
    | .ok cd =>
      match fw.get_suite suite_name with
      | none => .error 1
      | some _ =>
        .ok (fw.updateSuite suite_name fun s => (s.set_config_file cf).set_config_data cd)
  | none => .ok fw

/-- The case-creation half of `add_test_cases_to_suite` (lines 859-861):
one `TestCase` per subdirectory, appended to the suite from the registry
(an empty subdirectory list never touches the registry; otherwise a
missing suite kills the process with `AttributeError`). -/
def suite_add_cases_step (fw : TestFramework) (e : WalkEntry) (suite_name : String) :
    Except Nat TestFramework :=
  if e.dirs.isEmpty then .ok fw
  else
    match fw.get_suite suite_name with
    | none => .error 1
    | some _ =>
      .ok (fw.updateSuite suite_name fun s =>
        e.dirs.foldl
          (fun acc subdir => acc.add_test_case (TestCase.init e.path subdir fw.output_subdir))
          s)

/-- `add_test_cases_to_suite` (lines 841-861): split the suite name off
the path (a path with no separator makes the `rsplit` unpacking raise),
then the two halves above. -/
def add_test_cases_to_suite (env : DiscoveryEnv) (fw : TestFramework) (e : WalkEntry) :
    Except Nat TestFramework :=
  match e.path.reverse with
  | suite_name :: _ :: _ =>
    match suite_config_step env fw e suite_name with
    | .error n => .error n
    | .ok fw1 => suite_add_cases_step fw1 e suite_name
  | _ => .error 1

/-- `add_details_to_test_case` (lines 821-838): split suite and case names
off the path, find them in the registries (a missing suite raises
`AttributeError` before the config file is even looked for), and when a
config file is present read it (a bad file exits the run) and attach it to
the case (a missing case raises `AttributeError` at that point). -/
def add_details_to_test_case (env : DiscoveryEnv) (fw : TestFramework) (e : WalkEntry) :
    Except Nat TestFramework :=
  match e.path.reverse with
  | test_name :: suite_name :: _ :: _ =>
    match fw.get_suite suite_name with
    | none => .error 1
    | some suite =>
      let caseFound := suite.get_test_case test_name
      match get_config_file e.depth e.files with
      | none => .ok fw
      | some cf =>
        match read_config_file (env.contents e.path cf) cf with
        | .error n => .error n
        | .ok cd =>
          match caseFound with
          | none => .error 1
          | some _ =>
            .ok (fw.updateSuite suite_name fun s =>
              s.updateCase test_name fun c => (c.set_config_file cf).set_config_data cd)
  | _ => .error 1

/-- One iteration of the walk loop of `main` (lines 927-938), dispatching
on the entry's depth; `none` is the initial `framework = None` (a depth-1
or depth-2 entry before any depth-0 entry would raise `AttributeError`). -/
def main_discover_step (env : DiscoveryEnv) (acc : Option TestFramework) (e : WalkEntry) :
    Except Nat (Option TestFramework) :=
  match e.depth with
  | 0 =>
    match add_test_suites env (TestFramework.init e.path env.output_subdir) e with
    | .error n => .error n
    | .ok fw => .ok (some fw)
  | 1 =>
    match acc with
    | none => .error 1
    | some fw =>
      match add_test_cases_to_suite env fw e with
      | .error n => .error n
      | .ok fw1 => .ok (some fw1)
  | 2 =>
    match acc with
    | none => .error 1
    | some fw =>
      match add_details_to_test_case env fw e with
      | .error n => .error n
      | .ok fw1 => .ok (some fw1)
  | _ => .error 1

/-- The walk loop of `main` over a list of walk entries. -/
def main_discover_from (env : DiscoveryEnv) (acc : Option TestFramework) :
    List WalkEntry → Except Nat (Option TestFramework)
  | [] => .ok acc
  | e :: rest =>
    match main_discover_step env acc e with
    | .error n => .error n
    | .ok acc1 => main_discover_from env acc1 rest

/-- The complete discovery pass of `main` (lines 924-938). -/
def main_discover (env : DiscoveryEnv) (entries : List WalkEntry) :
    Except Nat (Option TestFramework) :=
  main_discover_from env none entries

/-- The number of `TestCase` entities held by the framework after
discovery (the sum of the suites' `test_list` lengths). -/
def totalCases (fw : TestFramework) : Nat :=
  (fw.suite_list.map fun s => s.test_list.length).sum

/-! ## Basic facts about one substitution step -/

theorem substVarArg_resolved (vars : List (String × String)) (arg v : String)
    (h1 : pyStartsWithDollar arg = true)
    (h2 : dictLookup vars (pyDropFirst arg) = some v) :
    substVarArg vars arg = v := by
  simp [substVarArg, h1, h2]

theorem substVarArg_unresolved (vars : List (String × String)) (arg : String)
    (h1 : pyStartsWithDollar arg = true)
    (h2 : dictLookup vars (pyDropFirst arg) = none) :
    substVarArg vars arg = arg := by
  simp [substVarArg, h1, h2]

theorem substVarArg_not_token (vars : List (String × String)) (arg : String)
    (h : pyStartsWithDollar arg = false) :
    substVarArg vars arg = arg := by
  simp [substVarArg, h]

theorem substVarArgPrintable_not_token (vars : List (String × String)) (arg : String)
    (h : pyStartsWithDollar arg = false) :
    substVarArgPrintable vars arg = arg := by
  simp [substVarArgPrintable, h]

theorem substVarArgPrintable_unresolved (vars : List (String × String)) (arg : String)
    (h1 : pyStartsWithDollar arg = true)
    (h2 : dictLookup vars (pyDropFirst arg) = none) :
    substVarArgPrintable vars arg = arg := by
  simp [substVarArgPrintable, h1, h2]

theorem mask_not_token : pyStartsWithDollar "********" = false := rfl

/-- Each printable-pass step yields either the executable-pass value or
the fixed mask. -/
theorem printable_eq_or_mask (vars : List (String × String)) (arg : String) :
    substVarArgPrintable vars arg = substVarArg vars arg ∨
    substVarArgPrintable vars arg = "********" := by
  by_cases hd : pyStartsWithDollar arg = true
  · cases hl : dictLookup vars (pyDropFirst arg) with
    | none => left; simp [substVarArgPrintable, substVarArg, hd, hl]
    | some v =>
      by_cases hs : pyDropFirst arg ∈ TestFramework.sensitive_args
      · right; simp [substVarArgPrintable, hd, hl, hs]
      · left; simp [substVarArgPrintable, substVarArg, hd, hl, hs]
  · left
    simp at hd
    simp [substVarArgPrintable, substVarArg, hd]

theorem map_id_of_mem {α : Type} (l : List α) (f : α → α) (h : ∀ a ∈ l, f a = a) :
    l.map f = l := by
  induction l with
  | nil => rfl
  | cons x xs ih =>
    simp only [List.map_cons, h x (by simp)]
    rw [ih fun a ha => h a (by simp [ha])]

/-- A framework state carrying the given run scope (everything else
fixed), for concrete instantiations. -/
def mkFramework (vars : List (String × String)) : TestFramework :=
  { TestFramework.init ["r"] "out" with config_vars := vars }

/-- A suite state carrying the given suite scope. -/
def mkSuite (vars : List (String × String)) : TestSuite :=
  { TestSuite.init ["r"] "s" with custom_vars := vars }

theorem lookup_condInsert_ne (vs : List (String × String)) (key : String)
    (o : Option String) {k : String} (h : k ≠ key) :
    dictLookup (condInsert vs key o) k = dictLookup vs k := by
  cases o with
  | none => rfl
  | some v => exact dictLookup_insert_ne vs v h

theorem lookup_condInsert_self (vs : List (String × String)) (key : String)
    {o : Option String} {v : String} (ho : o = some v) :
    dictLookup (condInsert vs key o) key = some v := by
  subst ho
  exact dictLookup_insert_self vs key v

/-! ## C3: substitution priority -/

def suiteC3 : TestSuite := mkSuite [("x", "$x")]

def fwC3 : TestFramework := mkFramework [("x", "B")]

/-- C3 counterexample: the token `$x` is resolvable in both the suite
scope (value `"$x"`) and the run scope (value `"B"`), yet the two-pass
substitution of `main` produces the run-scope value `"B"`, not the
suite-scope value: a suite value that itself starts with `$` is handed to
the run-level pass and re-resolved there, so the claim "the suite-scope
value is used" fails as stated. -/
theorem run_scope_wins_counterexample :
    dictLookup suiteC3.custom_vars "x" = some "$x" ∧
    dictLookup fwC3.config_vars "x" = some "B" ∧
    (mainSubstitute suiteC3 fwC3 (some ["$x"]) (some ["$x"])).1 = some ["B"] ∧
    ("B" : String) ≠ "$x" :=
  ⟨rfl, rfl, rfl, by decide⟩

/-- C3 (amended): (i) for a token resolvable in the suite scope whose
suite value does not itself begin with `$`, the composed substitution
returns the suite value, whatever the run scope binds the name to; and
(ii) for each of the seven well-known keys, a command-line override beats
whatever the run-level configuration file put in the run scope: after
`set_config_data` then `override_config_data`, substitution of the
corresponding token yields the command-line value. -/
theorem subst_priority_amended :
    (∀ (suite : TestSuite) (fw : TestFramework) (arg v : String),
       pyStartsWithDollar arg = true →
       dictLookup suite.custom_vars (pyDropFirst arg) = some v →
       pyStartsWithDollar v = false →
       substVarArg fw.config_vars (substVarArg suite.custom_vars arg) = v)
    ∧ (∀ (fw : TestFramework) (cd : JsonVal) (args : CmdArgs),
       (∀ v, args.rhost = some v →
          substVarArg ((fw.set_config_data cd).override_config_data args).config_vars
            "$target_system" = v)
       ∧ (∀ v, args.user = some v →
          substVarArg ((fw.set_config_data cd).override_config_data args).config_vars
            "$username" = v)
       ∧ (∀ v, args.password = some v →
          substVarArg ((fw.set_config_data cd).override_config_data args).config_vars
            "$password" = v)
       ∧ (∀ v, args.token = some v →
          substVarArg ((fw.set_config_data cd).override_config_data args).config_vars
            "$token" = v)
       ∧ (∀ v, args.secure = some v →
          substVarArg ((fw.set_config_data cd).override_config_data args).config_vars
            "$https" = v)
       ∧ (∀ v, args.directory = some v →
          substVarArg ((fw.set_config_data cd).override_config_data args).config_vars
            "$output_subdir" = v)
       ∧ (∀ v, args.interpreter = some v →
          substVarArg ((fw.set_config_data cd).override_config_data args).config_vars
            "$interpreter" = v)) := by
  constructor
  · intro suite fw arg v h1 h2 h3
    rw [substVarArg_resolved suite.custom_vars arg v h1 h2]
    exact substVarArg_not_token fw.config_vars v h3
  · intro fw cd args
    refine ⟨?_, ?_, ?_, ?_, ?_, ?_, ?_⟩
    · intro v hv
      refine substVarArg_resolved _ _ _ rfl ?_
      show dictLookup _ "target_system" = some v
      simp only [TestFramework.override_config_data]
      rw [lookup_condInsert_ne _ _ _ (by decide), lookup_condInsert_ne _ _ _ (by decide),
        lookup_condInsert_ne _ _ _ (by decide), lookup_condInsert_ne _ _ _ (by decide),
        lookup_condInsert_ne _ _ _ (by decide), lookup_condInsert_ne _ _ _ (by decide)]
      exact lookup_condInsert_self _ _ hv
    · intro v hv
      refine substVarArg_resolved _ _ _ rfl ?_
      show dictLookup _ "username" = some v
      simp only [TestFramework.override_config_data]
      rw [lookup_condInsert_ne _ _ _ (by decide), lookup_condInsert_ne _ _ _ (by decide),
        lookup_condInsert_ne _ _ _ (by decide), lookup_condInsert_ne _ _ _ (by decide),
        lookup_condInsert_ne _ _ _ (by decide)]
      exact lookup_condInsert_self _ _ hv
    · intro v hv
      refine substVarArg_resolved _ _ _ rfl ?_
      show dictLookup _ "password" = some v
      simp only [TestFramework.override_config_data]
      rw [lookup_condInsert_ne _ _ _ (by decide), lookup_condInsert_ne _ _ _ (by decide),
        lookup_condInsert_ne _ _ _ (by decide), lookup_condInsert_ne _ _ _ (by decide)]
      exact lookup_condInsert_self _ _ hv
    · intro v hv
      refine substVarArg_resolved _ _ _ rfl ?_
      show dictLookup _ "token" = some v
      simp only [TestFramework.override_config_data]
      rw [lookup_condInsert_ne _ _ _ (by decide), lookup_condInsert_ne _ _ _ (by decide),
        lookup_condInsert_ne _ _ _ (by decide)]
      exact lookup_condInsert_self _ _ hv
    · intro v hv
      refine substVarArg_resolved _ _ _ rfl ?_
      show dictLookup _ "https" = some v
      simp only [TestFramework.override_config_data]
      rw [lookup_condInsert_ne _ _ _ (by decide), lookup_condInsert_ne _ _ _ (by decide)]
      exact lookup_condInsert_self _ _ hv
    · intro v hv
      refine substVarArg_resolved _ _ _ rfl ?_
      show dictLookup _ "output_subdir" = some v
      simp only [TestFramework.override_config_data]
      rw [lookup_condInsert_ne _ _ _ (by decide)]
      exact lookup_condInsert_self _ _ hv
    · intro v hv
      refine substVarArg_resolved _ _ _ rfl ?_
      show dictLookup _ "interpreter" = some v
      simp only [TestFramework.override_config_data]
      exact lookup_condInsert_self _ _ hv

def argsAll : CmdArgs :=
  { rhost := some "h", user := some "u", password := some "p", token := some "t"
    secure := some "Always", directory := some "d", interpreter := some "python3" }

/-- Witness for `subst_priority_amended` at concrete inputs. -/
theorem subst_priority_amended_witness :
    (substVarArg (mkFramework [("a", "B")]).config_vars
       (substVarArg (mkSuite [("a", "A")]).custom_vars "$a") = "A")
    ∧ substVarArg (((mkFramework []).set_config_data (.obj [("password", .str "filepw")])
        ).override_config_data argsAll).config_vars "$password" = "p" :=
  ⟨subst_priority_amended.1 (mkSuite [("a", "A")]) (mkFramework [("a", "B")]) "$a" "A"
      rfl rfl rfl,
   (subst_priority_amended.2 (mkFramework []) (.obj [("password", .str "filepw")])
      argsAll).2.2.1 "p" rfl⟩

/-! ## C4: idempotence across the two passes -/

def suiteC4 : TestSuite := mkSuite [("x", "$y")]

def fwC4 : TestFramework := mkFramework [("y", "C")]

/-- C4 counterexample: the suite-level pass replaces `$x` with the suite
value `"$y"`, and the later run-level pass re-interprets that substituted
value as a token and rewrites it to `"C"` — a value substituted by the
suite pass is not treated as a literal when it begins with `$`. -/
theorem suite_value_reinterpreted :
    dictLookup suiteC4.custom_vars "x" = some "$y" ∧
    mainSubstitute suiteC4 fwC4 (some ["$x"]) (some ["$x"]) = (some ["C"], some ["C"]) ∧
    ("C" : String) ≠ "$y" :=
  ⟨rfl, rfl, by decide⟩

/-- C4 (amended): each pass visits every position exactly once, so an
argument list containing no `$`-prefixed token is a fixed point of the
complete two-pass substitution (executable and printable lists alike);
but a suite-pass value that begins with `$` is re-interpreted by the
run-level pass (see the counterexample). -/
theorem no_token_list_fixed_point :
    ∀ (suite : TestSuite) (fw : TestFramework) (args : List String),
      (∀ a ∈ args, pyStartsWithDollar a = false) →
      mainSubstitute suite fw (some args) (some args) = (some args, some args) := by
  intro suite fw args h
  have e1 : args.map (substVarArg suite.custom_vars) = args :=
    map_id_of_mem _ _ fun a ha => substVarArg_not_token _ _ (h a ha)
  have e2 : args.map (substVarArgPrintable suite.custom_vars) = args :=
    map_id_of_mem _ _ fun a ha => substVarArgPrintable_not_token _ _ (h a ha)
  have e3 : args.map (substVarArg fw.config_vars) = args :=
    map_id_of_mem _ _ fun a ha => substVarArg_not_token _ _ (h a ha)
  have e4 : args.map (substVarArgPrintable fw.config_vars) = args :=
    map_id_of_mem _ _ fun a ha => substVarArgPrintable_not_token _ _ (h a ha)
  simp [mainSubstitute, TestSuite.substitute_config_variables,
    TestFramework.substitute_config_variables, e1, e2, e3, e4]

/-- Witness for `no_token_list_fixed_point`. -/
theorem no_token_list_fixed_point_witness :
    (∀ a ∈ (["echo", "ok"] : List String), pyStartsWithDollar a = false) ∧
    mainSubstitute (mkSuite []) (mkFramework []) (some ["echo", "ok"]) (some ["echo", "ok"]) =
      (some ["echo", "ok"], some ["echo", "ok"]) :=
  ⟨by decide, no_token_list_fixed_point (mkSuite []) (mkFramework []) ["echo", "ok"] (by decide)⟩

/-! ## C5: redaction of sensitive tokens in the printable list -/

/-- Composing the two printable passes masks a resolvable sensitive
token. -/
theorem composed_printable_mask (sv fv : List (String × String)) (arg : String)
    (h1 : pyStartsWithDollar arg = true)
    (h2 : pyDropFirst arg ∈ TestFramework.sensitive_args)
    (h3 : dictLookup sv (pyDropFirst arg) ≠ none ∨ dictLookup fv (pyDropFirst arg) ≠ none) :
    substVarArgPrintable fv (substVarArgPrintable sv arg) = "********" := by
  cases hl : dictLookup sv (pyDropFirst arg) with
  | some v =>
    have hin : substVarArgPrintable sv arg = "********" := by
      simp [substVarArgPrintable, h1, hl, h2]
    rw [hin]
    exact substVarArgPrintable_not_token _ _ mask_not_token
  | none =>
    rw [substVarArgPrintable_unresolved sv arg h1 hl]
    rcases h3 with h3 | h3
    · exact absurd hl h3
    · cases hf : dictLookup fv (pyDropFirst arg) with
      | none => exact absurd hf h3
      | some w => simp [substVarArgPrintable, h1, hf, h2]

/-- C5: whenever a `$password` or `$token` token is resolved in either the
suite scope or the run scope, the position in the printable argument list
after both of main's substitution passes holds exactly the fixed mask
string `"********"`; the output is a constant independent of the secret
value, so the literal secret never appears at that position. -/
theorem sensitive_token_masked :
    ∀ (suite : TestSuite) (fw : TestFramework) (command_args : Option (List String))
      (pargs res : List String) (i : Nat) (arg : String),
      (mainSubstitute suite fw command_args (some pargs)).2 = some res →
      pargs[i]? = some arg →
      pyStartsWithDollar arg = true →
      pyDropFirst arg ∈ TestFramework.sensitive_args →
      (dictLookup suite.custom_vars (pyDropFirst arg) ≠ none ∨
       dictLookup fw.config_vars (pyDropFirst arg) ≠ none) →
      res[i]? = some "********" := by
  intro suite fw ca pargs res i arg hres hidx h1 h2 h3
  have hshape : (mainSubstitute suite fw ca (some pargs)).2 =
      some ((pargs.map (substVarArgPrintable suite.custom_vars)).map
        (substVarArgPrintable fw.config_vars)) := rfl
  rw [hshape] at hres
  injection hres with hres
  subst hres
  rw [List.getElem?_map, List.getElem?_map, hidx]
  simp [composed_printable_mask suite.custom_vars fw.config_vars arg h1 h2 h3]

def suiteC5 : TestSuite := mkSuite []

def fwC5 : TestFramework := mkFramework [("password", "secret")]

/-- Witness for `sensitive_token_masked`. -/
theorem sensitive_token_masked_witness :
    (mainSubstitute suiteC5 fwC5 (some ["run", "$password"]) (some ["run", "$password"])).2 =
      some ["run", "********"] ∧
    (["run", "********"] : List String)[1]? = some "********" :=
  ⟨rfl,
   sensitive_token_masked suiteC5 fwC5 (some ["run", "$password"]) ["run", "$password"]
     ["run", "********"] 1 "$password" rfl rfl rfl (by decide)
     (Or.inr (by decide))⟩

/-! ## C10: executable list gets the literal value, printable the mask -/

def fwC10 : TestFramework := mkFramework [("password", "********")]

/-- C10 counterexample: when the configured secret value is itself the
mask string, the executable and printable lists agree at the position of
a resolved sensitive token, so they do not "differ exactly at the
positions of resolved sensitive tokens" as claimed. -/
theorem exec_equals_printable_on_mask_valued_secret :
    dictLookup fwC10.config_vars "password" = some "********" ∧
    mainSubstitute (mkSuite []) fwC10 (some ["$password"]) (some ["$password"]) =
      (some ["********"], some ["********"]) :=
  ⟨rfl, rfl⟩

/-- C10 (amended): (i) a resolved token is replaced in the executable
list by the literal scope value, for every name, the sensitive ones
included; (ii) after both passes each printable entry equals the
corresponding executable entry or is the fixed mask — masking is the only
way the two lists can differ; (iii) at a position holding a sensitive
token resolved in the run scope to a value other than the mask string,
the executable list carries the literal secret, the printable list the
mask, and the two therefore differ there. -/
theorem exec_literal_printable_mask :
    (∀ (vars : List (String × String)) (arg v : String),
       pyStartsWithDollar arg = true →
       dictLookup vars (pyDropFirst arg) = some v →
       substVarArg vars arg = v)
    ∧ (∀ (suite : TestSuite) (fw : TestFramework) (arg : String),
       substVarArgPrintable fw.config_vars (substVarArgPrintable suite.custom_vars arg) =
         substVarArg fw.config_vars (substVarArg suite.custom_vars arg) ∨
       substVarArgPrintable fw.config_vars (substVarArgPrintable suite.custom_vars arg) =
         "********")
    ∧ (∀ (suite : TestSuite) (fw : TestFramework) (arg v : String),
       pyStartsWithDollar arg = true →
       pyDropFirst arg ∈ TestFramework.sensitive_args →
       dictLookup suite.custom_vars (pyDropFirst arg) = none →
       dictLookup fw.config_vars (pyDropFirst arg) = some v →
       v ≠ "********" →
       substVarArg fw.config_vars (substVarArg suite.custom_vars arg) = v ∧
       substVarArgPrintable fw.config_vars (substVarArgPrintable suite.custom_vars arg) =
         "********" ∧
       substVarArg fw.config_vars (substVarArg suite.custom_vars arg) ≠
         substVarArgPrintable fw.config_vars (substVarArgPrintable suite.custom_vars arg)) := by
  refine ⟨substVarArg_resolved, ?_, ?_⟩
  · intro suite fw arg
    rcases printable_eq_or_mask suite.custom_vars arg with h | h
    · rw [h]
      exact printable_eq_or_mask fw.config_vars (substVarArg suite.custom_vars arg)
    · right
      rw [h]
      exact substVarArgPrintable_not_token _ _ mask_not_token
  · intro suite fw arg v h1 h2 hsv hfv hv
    have hE : substVarArg fw.config_vars (substVarArg suite.custom_vars arg) = v := by
      rw [substVarArg_unresolved suite.custom_vars arg h1 hsv]
      exact substVarArg_resolved _ _ _ h1 hfv
    have hP : substVarArgPrintable fw.config_vars (substVarArgPrintable suite.custom_vars arg) =
        "********" := by
      rw [substVarArgPrintable_unresolved suite.custom_vars arg h1 hsv]
      simp [substVarArgPrintable, h1, hfv, h2]
    refine ⟨hE, hP, ?_⟩
    rw [hE, hP]
    exact hv

/-- Witness for `exec_literal_printable_mask`. -/
theorem exec_literal_printable_mask_witness :
    substVarArg [("token", "tok123")] "$token" = "tok123" ∧
    (substVarArgPrintable (mkFramework []).config_vars
       (substVarArgPrintable (mkSuite []).custom_vars "plain") =
       substVarArg (mkFramework []).config_vars (substVarArg (mkSuite []).custom_vars "plain") ∨
     substVarArgPrintable (mkFramework []).config_vars
       (substVarArgPrintable (mkSuite []).custom_vars "plain") = "********") ∧
    (substVarArg (mkFramework [("password", "secret")]).config_vars
       (substVarArg (mkSuite []).custom_vars "$password") = "secret" ∧
     substVarArgPrintable (mkFramework [("password", "secret")]).config_vars
       (substVarArgPrintable (mkSuite []).custom_vars "$password") = "********" ∧
     substVarArg (mkFramework [("password", "secret")]).config_vars
       (substVarArg (mkSuite []).custom_vars "$password") ≠
       substVarArgPrintable (mkFramework [("password", "secret")]).config_vars
         (substVarArgPrintable (mkSuite []).custom_vars "$password")) :=
  ⟨exec_literal_printable_mask.1 [("token", "tok123")] "$token" "tok123" rfl rfl,
   exec_literal_printable_mask.2.1 (mkSuite []) (mkFramework []) "plain",
   exec_literal_printable_mask.2.2 (mkSuite []) (mkFramework [("password", "secret")])
     "$password" "secret" rfl (by decide) rfl rfl (by decide)⟩

/-! ## C2: one result record per executed case -/

/-- When chdir, mkdir and the log-file opens succeed and the case carries
a `test` element with a command, `TestCase.run` executes the command:
the timestamp is set, `results.json` is consulted, the printable argument
list and the name are untouched, and the working directory ends at the
case directory. -/
theorem run_executed (env : ExecEnv) (cwd : List String) (c : TestCase)
    (cd tobj : JsonVal) (cargs : List String)
    (hch : env.chdirOk c.path = true)
    (hmk : env.mkdirOk c.output_dir = true)
    (hop : env.openOk c.output_dir = true)
    (hcd : c.config_dict = some cd)
    (ht : jsonObjGet cd "test" = some tobj)
    (hca : c.command_args = some cargs) :
    ∃ c1, TestCase.run env cwd c = (c1, c.path) ∧
      c1.timestamp = some env.now ∧
      c1.results = env.readResults c.output_dir ∧
      c1.command_args_printable = c.command_args_printable ∧
      c1.name = c.name := by
  cases hsp : env.spawn cargs with
  | none =>
    refine ⟨{ c with
      timestamp := some env.now
      results := env.readResults c.output_dir }, ?_, rfl, rfl, rfl, rfl⟩
    simp [TestCase.run, hch, hmk, hop, hcd, ht, hca, hsp]
  | some rc =>
    refine ⟨{ c with
      timestamp := some env.now
      return_code := rc
      results := env.readResults c.output_dir }, ?_, rfl, rfl, rfl, rfl⟩
    simp [TestCase.run, hch, hmk, hop, hcd, ht, hca, hsp]

/-- C2: for every executed, configured case, `run_test` completes without
error and appends exactly one result record to exactly one of the two
collections, the choice depending only on the case's final return code:
zero goes to the pass collection, anything else to the fail collection,
with the other collection unchanged. -/
theorem run_test_exactly_one_record :
    ∀ (env : ExecEnv) (fw : TestFramework) (suite : TestSuite) (case : TestCase)
      (results : Results) (cwd : List String) (cd tobj : JsonVal) (cargs : List String),
      env.chdirOk case.path = true →
      env.mkdirOk case.output_dir = true →
      env.openOk case.output_dir = true →
      case.config_dict = some cd →
      jsonObjGet cd "test" = some tobj →
      case.command_args = some cargs →
      ∃ (case1 : TestCase) (results1 : Results) (cwd1 : List String) (ok : Bool),
        RedfishTestCase.run_test env fw suite case results cwd =
          Except.ok (case1, results1, cwd1, ok) ∧
        ((case1.return_code = 0 ∧
            (∃ r, results1.results_pass = results.results_pass ++ [r]) ∧
            results1.results_fail = results.results_fail) ∨
         (case1.return_code ≠ 0 ∧
            (∃ r, results1.results_fail = results.results_fail ++ [r]) ∧
            results1.results_pass = results.results_pass)) := by
  intro env fw suite case results cwd cd tobj cargs hch hmk hop hcd ht hca
  obtain ⟨c1, hrun, hts, hres, hcap, hname⟩ :=
    run_executed env cwd case cd tobj cargs hch hmk hop hcd ht hca
  by_cases hrc : c1.return_code = 0
  · cases hread : c1.results with
    | some r =>
      refine ⟨c1, results.add_test_results_pass r,
        if env.chdirOk fw.path then fw.path else case.path, (c1.return_code == 0),
        ?_, Or.inl ⟨hrc, ⟨r, rfl⟩, rfl⟩⟩
      simp [RedfishTestCase.run_test, hrun, hrc, hread]
    | none =>
      obtain ⟨tr, htr⟩ : ∃ tr, create_test_results suite.name c1.name c1.timestamp
          c1.command_args_printable c1.return_code = .ok tr := by
        rw [hts]
        exact ⟨_, rfl⟩
      rw [hrc] at htr
      refine ⟨c1, results.add_test_results_pass tr,
        if env.chdirOk fw.path then fw.path else case.path, (c1.return_code == 0),
        ?_, Or.inl ⟨hrc, ⟨tr, rfl⟩, rfl⟩⟩
      simp [RedfishTestCase.run_test, hrun, hrc, hread, htr]
  · cases hread : c1.results with
    | some r =>
      refine ⟨c1, results.add_test_results_fail r,
        if env.chdirOk fw.path then fw.path else case.path, (c1.return_code == 0),
        ?_, Or.inr ⟨hrc, ⟨r, rfl⟩, rfl⟩⟩
      simp [RedfishTestCase.run_test, hrun, hrc, hread]
    | none =>
      obtain ⟨tr, htr⟩ : ∃ tr, create_test_results suite.name c1.name c1.timestamp
          c1.command_args_printable c1.return_code = .ok tr := by
        rw [hts]
        exact ⟨_, rfl⟩
      refine ⟨c1, results.add_test_results_fail tr,
        if env.chdirOk fw.path then fw.path else case.path, (c1.return_code == 0),
        ?_, Or.inr ⟨hrc, ⟨tr, rfl⟩, rfl⟩⟩
      simp [RedfishTestCase.run_test, hrun, hrc, hread, htr]

def envC2 : ExecEnv :=
  { chdirOk := fun _ => true
    mkdirOk := fun _ => true
    openOk := fun _ => true
    spawn := fun _ => some 0
    readResults := fun _ => none
    now := 5 }

def cdC2 : JsonVal := .obj [("test", .obj [("command", .str "echo ok")])]

def caseC2 : TestCase :=
  { TestCase.init ["r", "s"] "c" "out" with
    config_file := some "test_conf.json"
    config_dict := some cdC2
    command_args := some ["echo", "ok"]
    command_args_printable := some ["echo", "ok"] }

def fwC2 : TestFramework := TestFramework.init ["r"] "out"

def suiteC2 : TestSuite := TestSuite.init ["r"] "s"

/-- Witness for `run_test_exactly_one_record`. -/
theorem run_test_exactly_one_record_witness :
    ∃ (case1 : TestCase) (results1 : Results) (cwd1 : List String) (ok : Bool),
      RedfishTestCase.run_test envC2 fwC2 suiteC2 caseC2 ⟨[], []⟩ ["r"] =
        Except.ok (case1, results1, cwd1, ok) ∧
      ((case1.return_code = 0 ∧
          (∃ r, results1.results_pass = ([] : List JsonVal) ++ [r]) ∧
          results1.results_fail = ([] : List JsonVal)) ∨
       (case1.return_code ≠ 0 ∧
          (∃ r, results1.results_fail = ([] : List JsonVal) ++ [r]) ∧
          results1.results_pass = ([] : List JsonVal))) :=
  run_test_exactly_one_record envC2 fwC2 suiteC2 caseC2 ⟨[], []⟩ ["r"] cdC2
    (.obj [("command", .str "echo ok")]) ["echo", "ok"] rfl rfl rfl rfl rfl rfl

/-! ## C8: a pre-existing output directory -/

def envC8 : ExecEnv :=
  { chdirOk := fun _ => true
    mkdirOk := fun _ => false
    openOk := fun _ => true
    spawn := fun _ => some 0
    readResults := fun _ => none
    now := 7 }

def caseC8 : TestCase :=
  { TestCase.init ["r", "s"] "c" "out" with
    config_file := some "test_conf.json"
    config_dict := some cdC2
    command_args := some ["echo", "ok"]
    command_args_printable := some ["echo", "ok"] }

/-- C8: when the case's output directory already exists, `os.mkdir` fails
and `TestCase.run` returns early: the case keeps its default non-zero
return code and no structured outcome, with the working directory left at
the case directory.  But `run_test` then calls `create_test_results` with
the still-`None` timestamp, whose `format` call raises `TypeError`: the
test method dies before any fail record is appended and before the
working directory is restored to the run root — contradicting the claim
that a fail record is still produced and the directory restored. -/
theorem output_exists_no_record_no_restore :
    (TestCase.run envC8 ["r"] caseC8).1.return_code = 1 ∧
    (TestCase.run envC8 ["r"] caseC8).1.results = none ∧
    (TestCase.run envC8 ["r"] caseC8).2 = caseC8.path ∧
    caseC8.path ≠ fwC2.path ∧
    RedfishTestCase.run_test envC8 fwC2 suiteC2 caseC8 ⟨[], []⟩ ["r"] = Except.error () :=
  ⟨rfl, rfl, rfl, by decide, rfl⟩

/-! ## C6: unit-name collisions in the dynamic registry -/

/-- C6: two distinct (suite, case) pairs — `("a-b", "c")` and
`("a", "b-c")` — normalize to the same derived unit name `test_a_b_c`;
registering the second `setattr`s over the first, so the registry ends up
holding a single unit, bound to the second pair: the first registered
unit is silently lost, contradicting the claim. -/
theorem unit_name_collision_overwrites :
    test_func_name_for "a-b" "c" = "test_a_b_c" ∧
    test_func_name_for "a" "b-c" = "test_a_b_c" ∧
    add_test_as_unittest (add_test_as_unittest [] "a-b" "c") "a" "b-c" =
      [("test_a_b_c", ("a", "b-c"))] ∧
    (add_test_as_unittest (add_test_as_unittest [] "a-b" "c") "a" "b-c").length = 1 :=
  ⟨rfl, rfl, rfl, rfl⟩

/-! ## C1: present-but-invalid case configuration files -/

def envC1 : DiscoveryEnv :=
  { contents := fun _ _ => .invalidJson
    output_subdir := "out" }

def caseC1 : TestCase := TestCase.init ["r", "s"] "c" "out"

def suiteC1 : TestSuite := { TestSuite.init ["r"] "s" with test_list := [caseC1] }

def fwC1 : TestFramework := { TestFramework.init ["r"] "out" with suite_list := [suiteC1] }

def entryC1 : WalkEntry :=
  { depth := 2, path := ["r", "s", "c"], dirs := [], files := ["test_conf.json"] }

/-- C1 counterexample: a test-case configuration file that is present but
fails JSON parsing makes `read_config_file` call `sys.exit(1)`, so
processing the case's walk entry aborts the entire run instead of
skipping that case and continuing. -/
theorem case_config_error_aborts_run :
    add_details_to_test_case envC1 fwC1 entryC1 = Except.error 1 := rfl

/-- C1 (amended): at the test-case level only a *missing* configuration
file is skip-worthy — the entry is processed without effect, the case
stays unconfigured and `main` never registers it (every registered pair
comes from a case whose config file was found); a configuration file that
is present but fails JSON parsing exits the whole run with code 1, just
as at the run level. -/
theorem case_config_missing_skips_invalid_aborts :
    (∀ (env : DiscoveryEnv) (fw : TestFramework) (e : WalkEntry)
       (tn sn r0 : String) (rest : List String) (suite : TestSuite),
       e.path.reverse = tn :: sn :: r0 :: rest →
       fw.get_suite sn = some suite →
       e.depth = 2 →
       "test_conf.json" ∉ e.files →
       add_details_to_test_case env fw e = Except.ok fw)
    ∧ (∀ (env : DiscoveryEnv) (fw : TestFramework) (e : WalkEntry)
       (tn sn r0 : String) (rest : List String) (suite : TestSuite),
       e.path.reverse = tn :: sn :: r0 :: rest →
       fw.get_suite sn = some suite →
       e.depth = 2 →
       "test_conf.json" ∈ e.files →
       env.contents e.path "test_conf.json" = ConfigFileContent.invalidJson →
       add_details_to_test_case env fw e = Except.error 1)
    ∧ (∀ (fw : TestFramework) (p : String × String),
       p ∈ main_registration_list fw →
       ∃ s c, s ∈ fw.suite_list ∧ c ∈ s.test_list ∧ c.config_file.isSome ∧
         p = (s.name, c.name)) := by
  refine ⟨?_, ?_, ?_⟩
  · intro env fw e tn sn r0 rest suite hpath hsuite hdepth hfiles
    simp [add_details_to_test_case, hpath, hsuite, hdepth, get_config_file, hfiles]
  · intro env fw e tn sn r0 rest suite hpath hsuite hdepth hfiles hcont
    simp [add_details_to_test_case, hpath, hsuite, hdepth, get_config_file, hfiles,
      hcont, read_config_file]
  · intro fw p hp
    simp only [main_registration_list, List.mem_flatten, List.mem_map] at hp
    obtain ⟨l, ⟨s, hs, hl⟩, hpl⟩ := hp
    subst hl
    simp only [List.mem_map, List.mem_filter] at hpl
    obtain ⟨c, ⟨hc, hcf⟩, hpc⟩ := hpl
    exact ⟨s, c, hs, hc, hcf, hpc.symm⟩

def entryC1a : WalkEntry :=
  { depth := 2, path := ["r", "s", "c"], dirs := [], files := ["README.md"] }

def fwC1reg : TestFramework :=
  { TestFramework.init ["r"] "out" with
    suite_list := [{ TestSuite.init ["r"] "s" with
      test_list := [{ caseC1 with config_file := some "test_conf.json" }] }] }

/-- Witness for `case_config_missing_skips_invalid_aborts`. -/
theorem case_config_missing_skips_invalid_aborts_witness :
    add_details_to_test_case envC1 fwC1 entryC1a = Except.ok fwC1 ∧
    add_details_to_test_case envC1 fwC1 entryC1 = Except.error 1 ∧
    (∃ s c, s ∈ fwC1reg.suite_list ∧ c ∈ s.test_list ∧ c.config_file.isSome ∧
      (("s", "c") : String × String) = (s.name, c.name)) :=
  ⟨case_config_missing_skips_invalid_aborts.1 envC1 fwC1 entryC1a "c" "s" "r" [] suiteC1
      rfl rfl rfl (by decide),
   case_config_missing_skips_invalid_aborts.2.1 envC1 fwC1 entryC1 "c" "s" "r" [] suiteC1
      rfl rfl rfl (by decide) rfl,
   case_config_missing_skips_invalid_aborts.2.2 fwC1reg ("s", "c") (by decide)⟩

/-! ## C9: the output_subdir variable in the run scope -/

def envC9 : DiscoveryEnv :=
  { contents := fun _ _ => .missing
    output_subdir := "out" }

def entryC9 : WalkEntry := { depth := 0, path := ["r"], dirs := ["s"], files := [] }

def fwC9 : TestFramework :=
  match add_test_suites envC9 (TestFramework.init ["r"] "out") entryC9 with
  | .ok fw => fw
  | .error _ => TestFramework.init [] ""

/-- C9 counterexample: in a run whose top-level directory has no
`framework_conf.json`, `set_config_data` is never called, `config_vars`
stays empty, and a `$output_subdir` token in a case command is left
unresolved by the run-level pass — the run scope does not always contain
`output_subdir`. -/
theorem output_subdir_unresolved_without_config :
    add_test_suites envC9 (TestFramework.init ["r"] "out") entryC9 = Except.ok fwC9 ∧
    fwC9.config_file = none ∧
    dictLookup fwC9.config_vars "output_subdir" = none ∧
    TestFramework.substitute_config_variables fwC9
        (some ["$output_subdir"]) (some ["$output_subdir"]) =
      (some ["$output_subdir"], some ["$output_subdir"]) :=
  ⟨rfl, rfl, rfl, rfl⟩

theorem lookup_foldl_insertWellKnown_ne (cd : JsonVal) (keys : List String)
    (vs : List (String × String)) {k : String} (h : k ∉ keys) :
    dictLookup (keys.foldl (insertWellKnown cd) vs) k = dictLookup vs k := by
  induction keys generalizing vs with
  | nil => rfl
  | cons key rest ih =>
    have hk : k ≠ key := fun hh => h (by simp [hh])
    have hrest : k ∉ rest := fun hh => h (by simp [hh])
    rw [List.foldl_cons, ih _ hrest]
    unfold insertWellKnown
    cases hg : jsonObjGet cd key with
    | none => rfl
    | some v =>
      cases v with
      | str s => exact dictLookup_insert_ne vs s hk
      | null => rfl
      | bool b => rfl
      | int n => rfl
      | arr l => rfl
      | obj fs => rfl

theorem lookup_foldl_insertCustomVar_ne (varObj : List (String × JsonVal))
    (vs : List (String × String)) {k : String} (h : k ∉ varObj.map Prod.fst) :
    dictLookup (varObj.foldl insertCustomVar vs) k = dictLookup vs k := by
  induction varObj generalizing vs with
  | nil => rfl
  | cons p rest ih =>
    have hk : k ≠ p.1 := fun hh => h (by simp [hh])
    have hrest : k ∉ rest.map Prod.fst := fun hh => h (by simp [hh])
    rw [List.foldl_cons, ih _ hrest]
    unfold insertCustomVar
    cases p.2 with
    | str s => exact dictLookup_insert_ne vs s hk
    | null => rfl
    | bool b => rfl
    | int n => rfl
    | arr l => rfl
    | obj fs => rfl

/-- C9 (amended): whenever the top-level configuration file is present —
so that `set_config_data` runs — the run scope binds `output_subdir` to
the run's output subdirectory name (provided no custom variable of that
name overrides it), and a `$output_subdir` token substitutes to it; in a
run with no top-level configuration file `config_vars` is never
populated and the token stays unresolved (see the counterexample). -/
theorem output_subdir_bound_after_set_config_data :
    ∀ (fw : TestFramework) (cd : JsonVal),
      (∀ varObj, jsonObjGet cd "custom_variables" = some (JsonVal.obj varObj) →
        "output_subdir" ∉ varObj.map Prod.fst) →
      dictLookup (fw.set_config_data cd).config_vars "output_subdir" =
        some fw.output_subdir ∧
      substVarArg (fw.set_config_data cd).config_vars "$output_subdir" =
        fw.output_subdir := by
  intro fw cd hcustom
  have hbase : dictLookup (fw.set_config_data cd).config_vars "output_subdir" =
      some fw.output_subdir := by
    simp only [TestFramework.set_config_data]
    have hwk : ("output_subdir" : String) ∉
        ["target_system", "username", "password", "token", "https", "interpreter"] := by
      decide
    cases hg : jsonObjGet cd "custom_variables" with
    | none =>
      rw [lookup_foldl_insertWellKnown_ne cd _ _ hwk]
      exact dictLookup_insert_self _ _ _
    | some v =>
      cases v with
      | obj varObj =>
        rw [lookup_foldl_insertCustomVar_ne varObj _ (hcustom varObj hg),
          lookup_foldl_insertWellKnown_ne cd _ _ hwk]
        exact dictLookup_insert_self _ _ _
      | null =>
        rw [lookup_foldl_insertWellKnown_ne cd _ _ hwk]
        exact dictLookup_insert_self _ _ _
      | bool b =>
        rw [lookup_foldl_insertWellKnown_ne cd _ _ hwk]
        exact dictLookup_insert_self _ _ _
      | int n =>
        rw [lookup_foldl_insertWellKnown_ne cd _ _ hwk]
        exact dictLookup_insert_self _ _ _
      | str s =>
        rw [lookup_foldl_insertWellKnown_ne cd _ _ hwk]
        exact dictLookup_insert_self _ _ _
      | arr l =>
        rw [lookup_foldl_insertWellKnown_ne cd _ _ hwk]
        exact dictLookup_insert_self _ _ _
  exact ⟨hbase, substVarArg_resolved _ _ _ rfl hbase⟩

/-- Witness for `output_subdir_bound_after_set_config_data`. -/
theorem output_subdir_bound_after_set_config_data_witness :
    dictLookup ((mkFramework []).set_config_data (.obj [])).config_vars "output_subdir" =
      some (mkFramework []).output_subdir ∧
    substVarArg ((mkFramework []).set_config_data (.obj [])).config_vars "$output_subdir" =
      (mkFramework []).output_subdir :=
  output_subdir_bound_after_set_config_data (mkFramework []) (.obj [])
    (fun varObj h => by simp [jsonObjGet, dictLookup] at h)


/-! ## C7: walk depth bound and the case-count equality -/

theorem walkAux_depth_le (fuel : Nat) :
    ∀ (t : DirTree) (path : List String) (depth : Nat) (e : WalkEntry),
      e ∈ walkAux fuel t path depth → e.depth ≤ depth + fuel := by
  induction fuel with
  | zero =>
    intro t path depth e he
    simp only [walkAux, List.mem_singleton] at he
    subst he
    simp [entryOf]
  | succ n ih =>
    intro t path depth e he
    simp only [walkAux, List.mem_cons] at he
    rcases he with rfl | he
    · simp [entryOf]
    · rw [List.mem_flatten] at he
      obtain ⟨l, hl, hel⟩ := he
      rw [List.mem_map] at hl
      obtain ⟨c, _, rfl⟩ := hl
      have := ih c (path ++ [c.name]) (depth + 1) e hel
      omega

theorem flatten_map_singleton {α β : Type} (l : List α) (g : α → β) :
    (l.map fun x => [g x]).flatten = l.map g := by
  induction l with
  | nil => rfl
  | cons x xs ih => simp [ih]

theorem main_discover_from_append (env : DiscoveryEnv) (acc : Option TestFramework)
    (xs ys : List WalkEntry) :
    main_discover_from env acc (xs ++ ys) =
      match main_discover_from env acc xs with
      | .error n => .error n
      | .ok acc1 => main_discover_from env acc1 ys := by
  induction xs generalizing acc with
  | nil => rfl
  | cons e rest ih =>
    simp only [List.cons_append, main_discover_from]
    cases main_discover_step env acc e with
    | error n => rfl
    | ok acc1 => exact ih acc1

theorem updateFirstBy_length {α : Type} (l : List α) (p : α → Bool) (f : α → α) :
    (updateFirstBy l p f).length = l.length := by
  induction l with
  | nil => rfl
  | cons x xs ih =>
    by_cases hp : p x
    · simp [updateFirstBy, hp]
    · simp [updateFirstBy, hp, ih]

theorem updateLastBy_length {α : Type} (l : List α) (p : α → Bool) (f : α → α) :
    (updateLastBy l p f).length = l.length := by
  unfold updateLastBy
  rw [List.length_reverse, updateFirstBy_length, List.length_reverse]

theorem map_updateFirstBy_eq {α β : Type} (l : List α) (p : α → Bool) (f : α → α)
    (g : α → β) (hg : ∀ x, g (f x) = g x) :
    (updateFirstBy l p f).map g = l.map g := by
  induction l with
  | nil => rfl
  | cons x xs ih =>
    by_cases hp : p x
    · simp [updateFirstBy, hp, hg]
    · simp [updateFirstBy, hp, ih]

theorem sum_map_updateFirstBy_add {α : Type} (l : List α) (p : α → Bool) (f : α → α)
    (g : α → Nat) (k : Nat)
    (hg : ∀ x, p x = true → g (f x) = g x + k)
    (hex : ∃ x ∈ l, p x = true) :
    ((updateFirstBy l p f).map g).sum = (l.map g).sum + k := by
  induction l with
  | nil => simp at hex
  | cons x xs ih =>
    by_cases hp : p x
    · simp only [updateFirstBy, if_pos hp, List.map_cons, List.sum_cons, hg x hp]
      omega
    · have hex2 : ∃ y ∈ xs, p y = true := by
        obtain ⟨y, hy, hpy⟩ := hex
        rcases List.mem_cons.mp hy with rfl | hy2
        · exact absurd hpy hp
        · exact ⟨y, hy2, hpy⟩
      simp only [updateFirstBy, if_neg hp, List.map_cons, List.sum_cons, ih hex2]
      omega

theorem map_updateLastBy_eq {α β : Type} (l : List α) (p : α → Bool) (f : α → α)
    (g : α → β) (hg : ∀ x, g (f x) = g x) :
    (updateLastBy l p f).map g = l.map g := by
  unfold updateLastBy
  rw [List.map_reverse, map_updateFirstBy_eq _ _ _ _ hg, List.map_reverse,
    List.reverse_reverse]

theorem sum_map_updateLastBy_add {α : Type} (l : List α) (p : α → Bool) (f : α → α)
    (g : α → Nat) (k : Nat)
    (hg : ∀ x, p x = true → g (f x) = g x + k)
    (hex : ∃ x ∈ l, p x = true) :
    ((updateLastBy l p f).map g).sum = (l.map g).sum + k := by
  unfold updateLastBy
  have hex2 : ∃ x ∈ l.reverse, p x = true := by
    obtain ⟨x, hx, hpx⟩ := hex
    exact ⟨x, List.mem_reverse.mpr hx, hpx⟩
  rw [List.map_reverse, List.sum_reverse, sum_map_updateFirstBy_add _ _ _ _ k hg hex2,
    List.map_reverse, List.sum_reverse]

theorem totalCases_updateSuite_eq (fw : TestFramework) (name : String)
    (f : TestSuite → TestSuite)
    (hf : ∀ s, (f s).test_list.length = s.test_list.length) :
    totalCases (fw.updateSuite name f) = totalCases fw := by
  unfold totalCases TestFramework.updateSuite
  rw [map_updateLastBy_eq _ _ _ _ hf]

theorem totalCases_updateSuite_add (fw : TestFramework) (name : String)
    (f : TestSuite → TestSuite) (k : Nat)
    (hf : ∀ s, (f s).test_list.length = s.test_list.length + k)
    (hex : ∃ s ∈ fw.suite_list, (s.name == name) = true) :
    totalCases (fw.updateSuite name f) = totalCases fw + k := by
  unfold totalCases TestFramework.updateSuite
  exact sum_map_updateLastBy_add _ _ _ _ k (fun s _ => hf s) hex

theorem find?_pred {α : Type} (l : List α) (p : α → Bool) (a : α)
    (h : l.find? p = some a) : p a = true := by
  induction l with
  | nil => simp [List.find?] at h
  | cons x xs ih =>
    by_cases hp : p x
    · rw [List.find?_cons_of_pos _ hp] at h
      injection h with h2
      subst h2
      exact hp
    · rw [List.find?_cons_of_neg _ hp] at h
      exact ih h

theorem get_suite_exists (fw : TestFramework) (name : String) (s : TestSuite)
    (h : fw.get_suite name = some s) :
    ∃ t ∈ fw.suite_list, (t.name == name) = true := by
  unfold TestFramework.get_suite at h
  exact ⟨s, List.mem_reverse.mp (List.mem_of_find?_eq_some h),
    find?_pred fw.suite_list.reverse (fun t => t.name == name) s h⟩

theorem foldl_add_suite_spec (p : List String) (dirs : List String) :
    ∀ fw0 : TestFramework,
      (dirs.foldl (fun acc subdir => acc.add_suite (TestSuite.init p subdir)) fw0).suite_list =
        fw0.suite_list ++ dirs.map (TestSuite.init p) ∧
      (dirs.foldl (fun acc subdir => acc.add_suite (TestSuite.init p subdir)) fw0).output_subdir =
        fw0.output_subdir := by
  induction dirs with
  | nil => intro fw0; simp
  | cons d rest ih =>
    intro fw0
    rw [List.foldl_cons, List.map_cons]
    refine ⟨?_, ?_⟩
    · rw [(ih _).1]
      simp [TestFramework.add_suite]
    · rw [(ih _).2]
      rfl

theorem add_test_suites_ok (env : DiscoveryEnv) (fw : TestFramework) (e : WalkEntry)
    (fw1 : TestFramework) (h : add_test_suites env fw e = Except.ok fw1) :
    fw1.suite_list = fw.suite_list ++ e.dirs.map (TestSuite.init e.path) ∧
    fw1.output_subdir = fw.output_subdir := by
  simp only [add_test_suites] at h
  split at h
  · split at h
    · simp at h
    · injection h with h2
      subst h2
      exact foldl_add_suite_spec e.path e.dirs _
  · injection h with h2
    subst h2
    exact foldl_add_suite_spec e.path e.dirs fw

theorem foldl_add_test_case_length (p : List String) (od : String) (dirs : List String) :
    ∀ s : TestSuite,
      ((dirs.foldl (fun acc subdir => acc.add_test_case (TestCase.init p subdir od)) s)
        ).test_list.length = s.test_list.length + dirs.length := by
  induction dirs with
  | nil => intro s; simp
  | cons d rest ih =>
    intro s
    rw [List.foldl_cons, ih]
    simp [TestSuite.add_test_case]
    omega

theorem suite_config_step_ok (env : DiscoveryEnv) (fw : TestFramework) (e : WalkEntry)
    (suite_name : String) (fw1 : TestFramework)
    (h : suite_config_step env fw e suite_name = Except.ok fw1) :
    totalCases fw1 = totalCases fw := by
  unfold suite_config_step at h
  cases hg : get_config_file e.depth e.files with
  | none =>
    rw [hg] at h
    simp at h
    subst h
    rfl
  | some cf =>
    rw [hg] at h
    simp only [] at h
    cases hr : read_config_file (env.contents e.path cf) cf with
    | error n =>
      rw [hr] at h
      simp at h
    | ok cd =>
      rw [hr] at h
      cases hs : fw.get_suite suite_name with
      | none =>
        rw [hs] at h
        simp at h
      | some s0 =>
        rw [hs] at h
        simp at h
        subst h
        exact totalCases_updateSuite_eq fw suite_name _ fun s => rfl

theorem suite_add_cases_step_ok (fw : TestFramework) (e : WalkEntry) (suite_name : String)
    (fw1 : TestFramework)
    (h : suite_add_cases_step fw e suite_name = Except.ok fw1) :
    totalCases fw1 = totalCases fw + e.dirs.length := by
  unfold suite_add_cases_step at h
  by_cases hemp : e.dirs.isEmpty = true
  · rw [if_pos hemp] at h
    simp at h
    subst h
    rw [List.isEmpty_iff.mp hemp]
    simp
  · rw [if_neg hemp] at h
    cases hs : fw.get_suite suite_name with
    | none =>
      rw [hs] at h
      simp at h
    | some s0 =>
      rw [hs] at h
      simp at h
      subst h
      exact totalCases_updateSuite_add fw suite_name _ e.dirs.length
        (fun s => foldl_add_test_case_length e.path fw.output_subdir e.dirs s)
        (get_suite_exists fw suite_name s0 hs)

theorem add_test_cases_to_suite_ok (env : DiscoveryEnv) (fw : TestFramework)
    (e : WalkEntry) (fw1 : TestFramework)
    (h : add_test_cases_to_suite env fw e = Except.ok fw1) :
    totalCases fw1 = totalCases fw + e.dirs.length := by
  cases hp : e.path.reverse with
  | nil => simp [add_test_cases_to_suite, hp] at h
  | cons sn tail =>
    cases tail with
    | nil => simp [add_test_cases_to_suite, hp] at h
    | cons x rest =>
      simp only [add_test_cases_to_suite, hp] at h
      cases hc : suite_config_step env fw e sn with
      | error n =>
        rw [hc] at h
        simp at h
      | ok fwmid =>
        rw [hc] at h
        simp only [] at h
        rw [suite_add_cases_step_ok fwmid e sn fw1 h,
          suite_config_step_ok env fw e sn fwmid hc]

theorem add_details_to_test_case_ok (env : DiscoveryEnv) (fw : TestFramework)
    (e : WalkEntry) (fw1 : TestFramework)
    (h : add_details_to_test_case env fw e = Except.ok fw1) :
    totalCases fw1 = totalCases fw := by
  cases hp : e.path.reverse with
  | nil => simp [add_details_to_test_case, hp] at h
  | cons tn tail =>
    cases tail with
    | nil => simp [add_details_to_test_case, hp] at h
    | cons sn tail2 =>
      cases tail2 with
      | nil => simp [add_details_to_test_case, hp] at h
      | cons r0 rest =>
        simp only [add_details_to_test_case, hp] at h
        cases hs : fw.get_suite sn with
        | none =>
          rw [hs] at h
          simp at h
        | some suite =>
          rw [hs] at h
          simp only [] at h
          cases hg : get_config_file e.depth e.files with
          | none =>
            rw [hg] at h
            simp at h
            subst h
            rfl
          | some cf =>
            rw [hg] at h
            simp only [] at h
            cases hr : read_config_file (env.contents e.path cf) cf with
            | error n =>
              rw [hr] at h
              simp at h
            | ok cd =>
              rw [hr] at h
              simp only [] at h
              cases hcase : suite.get_test_case tn with
              | none =>
                rw [hcase] at h
                simp at h
              | some c0 =>
                rw [hcase] at h
                simp at h
                subst h
                refine totalCases_updateSuite_eq fw sn _ fun s => ?_
                simp [TestSuite.updateCase, updateLastBy_length]

theorem discover_depth2_entries (env : DiscoveryEnv) (q : List String) :
    ∀ (ds : List DirTree) (fw : TestFramework) (acc : Option TestFramework),
      main_discover_from env (some fw)
        (ds.map fun d => entryOf d (q ++ [d.name]) 2) = Except.ok acc →
      ∃ fw1, acc = some fw1 ∧ totalCases fw1 = totalCases fw := by
  intro ds
  induction ds with
  | nil =>
    intro fw acc h
    simp only [List.map_nil, main_discover_from] at h
    injection h with h2
    exact ⟨fw, h2.symm, rfl⟩
  | cons d rest ih =>
    intro fw acc h
    simp only [List.map_cons, main_discover_from, main_discover_step, entryOf] at h
    cases hd : add_details_to_test_case env fw (entryOf d (q ++ [d.name]) 2) with
    | error n =>
      rw [entryOf] at hd
      rw [hd] at h
      simp at h
    | ok fw2 =>
      rw [entryOf] at hd
      rw [hd] at h
      simp only [] at h
      obtain ⟨fw1, hacc, htc⟩ := ih fw2 acc h
      refine ⟨fw1, hacc, ?_⟩
      rw [htc, add_details_to_test_case_ok env fw _ fw2 hd]

/-- The list of entries produced for one suite directory when walking
with `max_depth = 2`: the suite entry at depth 1 followed by one entry at
depth 2 per case directory. -/
theorem walkAux_one_shape (c : DirTree) (q : List String) :
    walkAux 1 c q 1 =
      entryOf c q 1 :: (c.subdirs.map fun d => entryOf d (q ++ [d.name]) 2) := by
  have h0 : walkAux 1 c q 1 =
      entryOf c q 1 :: (c.subdirs.map fun d => [entryOf d (q ++ [d.name]) 2]).flatten := rfl
  rw [h0, flatten_map_singleton]

theorem discover_one_segment (env : DiscoveryEnv) (c : DirTree) (q : List String)
    (fw : TestFramework) (acc : Option TestFramework)
    (h : main_discover_from env (some fw) (walkAux 1 c q 1) = Except.ok acc) :
    ∃ fw1, acc = some fw1 ∧ totalCases fw1 = totalCases fw + c.subdirs.length := by
  rw [walkAux_one_shape] at h
  simp only [main_discover_from, main_discover_step, entryOf] at h
  cases h1 : add_test_cases_to_suite env fw (entryOf c q 1) with
  | error n =>
    rw [entryOf] at h1
    rw [h1] at h
    simp at h
  | ok fw2 =>
    rw [entryOf] at h1
    rw [h1] at h
    simp only [] at h
    obtain ⟨fw1, hacc, htc⟩ := discover_depth2_entries env q c.subdirs fw2 acc h
    refine ⟨fw1, hacc, ?_⟩
    rw [htc, add_test_cases_to_suite_ok env fw _ fw2 h1]
    simp [entryOf]

theorem discover_segments (env : DiscoveryEnv) (q0 : List String) :
    ∀ (subs : List DirTree) (fw : TestFramework) (acc : Option TestFramework),
      main_discover_from env (some fw)
        ((subs.map fun c => walkAux 1 c (q0 ++ [c.name]) 1).flatten) = Except.ok acc →
      ∃ fw1, acc = some fw1 ∧
        totalCases fw1 = totalCases fw + (subs.map fun c => c.subdirs.length).sum := by
  intro subs
  induction subs with
  | nil =>
    intro fw acc h
    simp only [List.map_nil, List.flatten_nil, main_discover_from] at h
    injection h with h2
    exact ⟨fw, h2.symm, by simp⟩
  | cons c rest ih =>
    intro fw acc h
    rw [List.map_cons, List.flatten_cons, main_discover_from_append] at h
    cases hseg : main_discover_from env (some fw) (walkAux 1 c (q0 ++ [c.name]) 1) with
    | error n =>
      rw [hseg] at h
      simp at h
    | ok acc2 =>
      rw [hseg] at h
      simp only [] at h
      obtain ⟨fw2, hacc2, htc2⟩ := discover_one_segment env c (q0 ++ [c.name]) fw acc2 hseg
      subst hacc2
      obtain ⟨fw1, hacc, htc⟩ := ih fw2 acc h
      refine ⟨fw1, hacc, ?_⟩
      rw [htc, htc2]
      simp only [List.map_cons, List.sum_cons]
      omega

theorem count_depth2_entries (q : List String) (ds : List DirTree) :
    ((ds.map fun d => entryOf d (q ++ [d.name]) 2).filter fun e => e.depth == 2).length =
      ds.length := by
  induction ds with
  | nil => rfl
  | cons d rest ih =>
    have hc : ((entryOf d (q ++ [d.name]) 2).depth == 2) = true := rfl
    rw [List.map_cons, List.filter_cons, if_pos hc, List.length_cons, ih]
    rfl

theorem count_depth2_segments (q0 : List String) (subs : List DirTree) :
    (((subs.map fun c => walkAux 1 c (q0 ++ [c.name]) 1).flatten).filter
        fun e => e.depth == 2).length =
      (subs.map fun c => c.subdirs.length).sum := by
  induction subs with
  | nil => rfl
  | cons c rest ih =>
    rw [List.map_cons, List.flatten_cons, List.filter_append, List.length_append, ih,
      walkAux_one_shape, List.filter_cons]
    rw [show ((entryOf c (q0 ++ [c.name]) 1).depth == 2) = false from rfl]
    simp only [Bool.false_eq_true, if_false, List.map_cons, List.sum_cons]
    rw [count_depth2_entries (q0 ++ [c.name]) c.subdirs]

/-- C7: (i) for every directory tree, root path and `max_depth`, the
pruned walk never yields an entry whose depth exceeds `max_depth`; and
(ii) whenever the discovery pass of `main` over the depth-2 walk
completes, the number of `TestCase` entities held by the resulting
framework equals the number of directories yielded at depth 2. -/
theorem walk_depth_bounded_and_case_count :
    (∀ (t : DirTree) (rootPath : List String) (max_depth : Nat),
       ∀ e ∈ walk_depth t rootPath max_depth, e.depth ≤ max_depth)
    ∧ (∀ (t : DirTree) (rootPath : List String) (env : DiscoveryEnv) (fw : TestFramework),
       main_discover env (walk_depth t rootPath 2) = Except.ok (some fw) →
       totalCases fw = ((walk_depth t rootPath 2).filter fun e => e.depth == 2).length) := by
  constructor
  · intro t p maxd e he
    have := walkAux_depth_le maxd t p 0 e he
    omega
  · intro t p env fw h
    have hshape : walk_depth t p 2 =
        entryOf t p 0 :: (t.subdirs.map fun c => walkAux 1 c (p ++ [c.name]) 1).flatten := rfl
    rw [hshape] at h ⊢
    simp only [main_discover, main_discover_from, main_discover_step, entryOf] at h
    cases hA : add_test_suites env (TestFramework.init p env.output_subdir) (entryOf t p 0) with
    | error n =>
      rw [entryOf] at hA
      rw [hA] at h
      simp at h
    | ok fwA =>
      rw [entryOf] at hA
      rw [hA] at h
      simp only [] at h
      obtain ⟨fw1, hacc, htc⟩ := discover_segments env p t.subdirs fwA (some fw) h
      injection hacc with hacc2
      subst hacc2
      have htc0 : totalCases fwA = 0 := by
        have h1 := (add_test_suites_ok env (TestFramework.init p env.output_subdir)
          (entryOf t p 0) fwA hA).1
        simp only [totalCases, h1, TestFramework.init, entryOf, List.nil_append,
          List.map_map]
        rw [List.sum_eq_zero]
        intro x hx
        simp only [List.mem_map] at hx
        obtain ⟨nm, _, rfl⟩ := hx
        rfl
      rw [List.filter_cons]
      rw [show ((entryOf t p 0).depth == 2) = false from rfl]
      simp only [Bool.false_eq_true, if_false]
      rw [count_depth2_segments p t.subdirs, htc, htc0]
      omega

def treeC7 : DirTree :=
  .node "root" [] [.node "s1" [] [.node "c1" [] [], .node "c2" [] []]]

def envC7 : DiscoveryEnv :=
  { contents := fun _ _ => .missing
    output_subdir := "out" }

def fwC7 : TestFramework :=
  match main_discover envC7 (walk_depth treeC7 ["r"] 2) with
  | .ok (some fw) => fw
  | _ => TestFramework.init [] ""

/-- Witness for `walk_depth_bounded_and_case_count`. -/
theorem walk_depth_bounded_and_case_count_witness :
    (entryOf treeC7 ["r"] 0 ∈ walk_depth treeC7 ["r"] 2 ∧
      (entryOf treeC7 ["r"] 0).depth ≤ 2) ∧
    (main_discover envC7 (walk_depth treeC7 ["r"] 2) = Except.ok (some fwC7) ∧
      totalCases fwC7 = ((walk_depth treeC7 ["r"] 2).filter fun e => e.depth == 2).length) :=
  ⟨⟨by decide, walk_depth_bounded_and_case_count.1 treeC7 ["r"] 2 (entryOf treeC7 ["r"] 0)
      (by decide)⟩,
   ⟨rfl, walk_depth_bounded_and_case_count.2 treeC7 ["r"] envC7 fwC7 rfl⟩⟩
